import Mathlib

/-!
Verification of the name-file parser of `gsflow/utils/mfreadnam.py`.

The parser `parsenamefile` and the lookup helper `getfiletypeunit` are
embedded shallowly: Python strings are Lean `String`s over their character
lists, the filesystem (`os.path.isfile`, `os.path.exists`, `os.listdir`,
`open`) is an explicit record of decidable oracles, printing is modelled
as a returned message list, and exceptions as `Except` values.  The host
operating system is modelled as POSIX (`os.sep = "/"`, `os.path.join`,
`os.path.dirname`, `os.path.basename` follow `posixpath`).
-/

set_option autoImplicit false

/-- Characters stripped by Python's `str.strip()` (ASCII fragment). -/
def isPySpace (c : Char) : Bool :=
  c = ' ' || c = '\t' || c = '\n' || c = '\r' || c = '\x0b' || c = '\x0c'

/-- Python `str.strip()`: drop leading and trailing whitespace. -/
def pyStrip (s : String) : String :=
  ⟨((s.data.dropWhile isPySpace).reverse.dropWhile isPySpace).reverse⟩

/-- Split a character list at every character satisfying `p`, keeping
empty pieces (the splitting behaviour of Python's `str.split(sep)`). -/
def splitPred (p : Char → Bool) : List Char → List (List Char)
  | [] => [[]]
  | c :: rest =>
    let r := splitPred p rest
    if p c then [] :: r
    else
      match r with
      | [] => [[c]]
      | seg :: segs => (c :: seg) :: segs

/-- Python `str.split()` with no argument: split on whitespace runs,
discarding empty pieces. -/
def pySplitWs (s : String) : List String :=
  ((splitPred isPySpace s.data).filter (fun l => l ≠ [])).map (fun l => ⟨l⟩)

/-- Python `str.split(sep)` for a one-character separator: empty pieces
are kept. -/
def pySplitChar (s : String) (sep : Char) : List String :=
  (splitPred (fun c => c = sep) s.data).map (fun l => ⟨l⟩)

/-- Python `c in s` for a character. -/
def pyContains (s : String) (c : Char) : Bool :=
  s.data.contains c

/-- Python `s.replace(c, "")`: remove every occurrence of character `c`. -/
def removeChar (s : String) (c : Char) : String :=
  ⟨s.data.filter (fun x => x ≠ c)⟩

/-- Python `str.upper()` (ASCII fragment). -/
def pyUpper (s : String) : String :=
  ⟨s.data.map Char.toUpper⟩

/-- Python `str.lower()` (ASCII fragment). -/
def pyLower (s : String) : String :=
  ⟨s.data.map Char.toLower⟩

/-- Python `s.startswith("#")`. -/
def startsHash (s : String) : Bool :=
  match s.data with
  | '#' :: _ => true
  | _ => false

/-- Value of a Python decimal digit string after its first digit:
single underscores are allowed between digits (`int("1_0") = 10`). -/
def pyDigitsVal : List Char → Nat → Option Nat
  | [], acc => some acc
  | '_' :: c :: rest, acc =>
    if c.isDigit then pyDigitsVal rest (acc * 10 + (c.toNat - 48)) else none
  | c :: rest, acc =>
    if c.isDigit then pyDigitsVal rest (acc * 10 + (c.toNat - 48)) else none

/-- Python `int(s)` on a whitespace-free token: optional sign, then a
nonempty digit sequence with optional single underscores between digits.
`none` models the `ValueError` raised on anything else. -/
def pyInt (s : String) : Option Int :=
  match s.data with
  | '+' :: c :: rest =>
    if c.isDigit then (pyDigitsVal (c :: rest) 0).map Int.ofNat else none
  | '-' :: c :: rest =>
    if c.isDigit then (pyDigitsVal (c :: rest) 0).map (fun n => -(n : Int)) else none
  | c :: rest =>
    if c.isDigit then (pyDigitsVal (c :: rest) 0).map Int.ofNat else none
  | [] => none

/-- Python `s.startswith("/")`, used by `posixpath.join`. -/
def startsWithSlash (s : String) : Bool :=
  match s.data with
  | '/' :: _ => true
  | _ => false

/-- Python `s.endswith("/")`, used by `posixpath.join`. -/
def endsWithSlash (s : String) : Bool :=
  match s.data.getLast? with
  | some '/' => true
  | _ => false

/-- Python `posixpath.join(a, b)` for two components. -/
def joinTwo (a b : String) : String :=
  if startsWithSlash b then b
  else if a = "" || endsWithSlash a then a ++ b
  else a ++ "/" ++ b

/-- Fold of `joinTwo` over the remaining components of `posixpath.join`. -/
def joinList (a : String) : List String → String
  | [] => a
  | b :: rest => joinList (joinTwo a b) rest

/-- Python `os.path.join(*raw)` for a nonempty argument list (POSIX). -/
def joinAll : List String → String
  | [] => ""
  | a :: rest => joinList a rest

/-- Python `posixpath.basename(p)`: everything after the last `/`. -/
def basename (p : String) : String :=
  ⟨(p.data.reverse.takeWhile (fun c => c ≠ '/')).reverse⟩

/-- Python `posixpath.dirname(p)`: everything up to the last `/`, with trailing
slashes stripped unless the result is all slashes. -/
def dirname (p : String) : String :=
  let bl := (p.data.reverse.takeWhile (fun c => c ≠ '/')).length
  let head := p.data.take (p.data.length - bl)
  if head.isEmpty || head.all (fun c => c = '/') then ⟨head⟩
  else ⟨(head.reverse.dropWhile (fun c => c = '/')).reverse⟩

/-! ## Data model -/

/-- A key of the returned registry: Python uses either the parsed `int`
unit number or the upper-cased filetype string. -/
inductive RegKey where
  | num (n : Int)
  | str (s : String)
deriving DecidableEq, Repr

/-- One registry entry, the fields of `NamData` the parser fills in:
`NamData(ftype, fname, filehandle, packages)`.  An open handle is
modelled as the `(path, mode)` pair it was opened with; `none` models
`filehandle = None` after a failed `open`. -/
structure NamData where
  filetype : String
  filename : String
  filehandle : Option (String × String)
deriving DecidableEq, Repr

/-- The ordered dict `ext_unit_dict`, as an insertion-ordered
association list. -/
abbrev Registry := List (RegKey × NamData)

/-- Python `d[key] = value` on an (insertion-ordered) dict: an existing
key keeps its position and gets the new value, a new key is appended. -/
def dictInsert (d : Registry) (k : RegKey) (v : NamData) : Registry :=
  if d.any (fun p => p.1 = k) then
    d.map (fun p => if p.1 = k then (p.1, v) else p)
  else d ++ [(k, v)]

/-- The `packages` argument (`mfnam_packages`): a mapping from
(lower-case) package-type token to the package's `reservedunit()`
value, as an association list. -/
abbrev Packages := List (String × Int)

/-- Python `packages[k]`-style lookup (`k in packages` plus indexing). -/
def lookupPkg (packages : Packages) (k : String) : Option Int :=
  (packages.find? (fun p => p.1 = k)).map Prod.snd

/-- The filesystem and `open` oracles the parser consults.
`listdir dir = none` models `os.listdir(dir)` raising `OSError`
(directory missing, unreadable, not a directory). -/
structure FS where
  isfile : String → Bool
  pathExists : String → Bool
  listdir : String → Option (List String)
  canOpen : String → String → Bool

/-- The exceptions `parsenamefile` can propagate.  The first three carry
exactly the data interpolated into the Python messages; `listdirFailed`
is the `OSError` escaping the unguarded `os.listdir(dn)` call. -/
inductive ParseError where
  | namNotFound (path : String) (dir : String)
  | tooFewItems (ln : Nat) (line : String)
  | badUnit (ln : Nat) (line : String)
  | listdirFailed (dir : String)
deriving DecidableEq, Repr

/-! ## The parser -/

/-- Quote removal, lines 159–163: remove all `"` then all `'`. -/
def stripQuotes (fpath : String) : String :=
  let f1 := if pyContains fpath '"' then removeChar fpath '"' else fpath
  if pyContains f1 '\'' then removeChar f1 '\'' else f1

/-- Separator detection and split, lines 165–171. -/
def pathSegments (fpath : String) : List String :=
  if pyContains fpath '/' then pySplitChar fpath '/'
  else if pyContains fpath '\\' then pySplitChar fpath '\\'
  else [fpath]

/-- Lines 159–172: quote removal, separator split, `os.path.join(*raw)`. -/
def normPath (fpath : String) : String :=
  joinAll (pathSegments (stripQuotes fpath))

/-- Lines 174–179: workspace join, or delegation to the external
`get_file_abs` collaborator (`gfa`) when a control file is supplied. -/
def resolveFname (cf : Option String) (gfa : String → String → String)
    (ws : String) (fpath : String) : String :=
  match cf with
  | none => joinTwo ws fpath
  | some c => gfa c fpath

/-- Lines 181–189: the case-insensitive fallback.  When the resolved name
is not an existing regular file, `os.listdir(dirname fname)` is called
unguarded; on success the first entry whose lower-cased name equals the
lower-cased basename replaces it (`lownams.index` takes the first hit). -/
def fallbackName (fs : FS) (fname : String) : Except ParseError String :=
  if !(fs.isfile fname) || !(fs.pathExists fname) then
    let dn := dirname fname
    match fs.listdir dn with
    | none => .error (.listdirFailed dn)
    | some fls =>
      let bname := basename fname
      match fls.find? (fun f => pyLower f = pyLower bname) with
      | some f => .ok (joinTwo dn f)
      | none => .ok fname
  else .ok fname

/-- Lines 208–217: key resolution for the parsed unit number. -/
def resolveKey (packages : Packages) (ftype : String) (n : Int) : RegKey :=
  if n = 0 then
    match lookupPkg packages (pyLower ftype) with
    | some u => RegKey.num u
    | none => RegKey.str ftype
  else RegKey.num n

/-- The body of the `for ln, line in enumerate(lines, 1)` loop
(lines 145–218) for one raw line: returns the messages printed while
handling the line and either the updated dict or the raised error. -/
def processLine (fs : FS) (packages : Packages) (cf : Option String)
    (gfa : String → String → String) (ws : String) (verbose : Bool)
    (ln : Nat) (rawline : String) (d : Registry) :
    List String × Except ParseError Registry :=
  let line := pyStrip rawline
  if line = "" || startsHash line then ([], .ok d)
  else
    let items := pySplitWs line
    if items.length < 3 then ([], .error (.tooFewItems ln line))
    else
      let ftype := pyUpper (items.getD 0 "")
      let keytok := items.getD 1 ""
      let fpath := normPath (items.getD 2 "")
      let fname0 := resolveFname cf gfa ws fpath
      match fallbackName fs fname0 with
      | .error e => ([], .error e)
      | .ok fname =>
        let openmode := if ftype = "DATA(BINARY)" then "rb" else "r"
        let filehandle :=
          if fs.canOpen fname openmode then some (fname, openmode) else none
        let msgs :=
          if !(fs.canOpen fname openmode) && verbose then
            ["could not set filehandle to " ++ fpath]
          else []
        match pyInt keytok with
        | none => (msgs, .error (.badUnit ln line))
        | some n =>
          (msgs, .ok (dictInsert d (resolveKey packages ftype n)
            ⟨ftype, fname, filehandle⟩))

/-- The whole loop over the numbered lines. -/
def parseLines (fs : FS) (packages : Packages) (cf : Option String)
    (gfa : String → String → String) (ws : String) (verbose : Bool) :
    List (Nat × String) → Registry → List String × Except ParseError Registry
  | [], d => ([], .ok d)
  | (ln, raw) :: rest, d =>
    let pr := processLine fs packages cf gfa ws verbose ln raw d
    match pr.2 with
    | .error e => (pr.1, .error e)
    | .ok d' =>
      let r2 := parseLines fs packages cf gfa ws verbose rest d'
      (pr.1 ++ r2.1, r2.2)

/-- Python `enumerate(lines, 1)`. -/
def enumFromOne : Nat → List String → List (Nat × String)
  | _, [] => []
  | n, l :: ls => (n, l) :: enumFromOne (n + 1) ls

/-- The entry point `parsenamefile(namfilename, packages, control_file, verbose, model_ws)`,
lines 94–219.  The manifest's contents (the `readlines()` result) are the
`lines` argument; `fs.isfile namfilename` decides the existence check of
line 135.  Returns the printed messages and either the completed registry
or the raised exception. -/
def parsenamefile (fs : FS) (packages : Packages) (cf : Option String)
    (gfa : String → String → String) (ws : String) (verbose : Bool)
    (namfilename : String) (lines : List String) :
    List String × Except ParseError Registry :=
  let msgs0 :=
    if verbose then ["Parsing the namefile --> " ++ namfilename] else []
  if !(fs.isfile namfilename) then
    (msgs0, .error (.namNotFound namfilename (dirname namfilename)))
  else
    let r := parseLines fs packages cf gfa ws verbose (enumFromOne 1 lines) []
    (msgs0 ++ r.1, r.2)

/-- The helper `getfiletypeunit(nf, filetype)`, lines 73–91: first entry (in
insertion order) whose stored filetype matches case-insensitively; on no
match a message is printed and `None` returned. -/
def getfiletypeunit (nf : Registry) (filetype : String) :
    List String × Option RegKey :=
  match nf.find? (fun p => pyLower p.2.filetype = pyLower filetype) with
  | some p => ([], some p.1)
  | none =>
    (["Name file does not contain file of type \"" ++ filetype ++ "\""], none)

/-- A registry with two `WEL` entries under keys 11 and 12, as in the
spec's example manifest. -/
def nfWelExample : Registry :=
  [(RegKey.num 11, ⟨"WEL", "wel_file.wel", none⟩),
   (RegKey.num 12, ⟨"WEL", "wel_file2.wel", none⟩)]

/-! ## Per-line analysis -/

/-- A manifest line reaching the token check: not blank and not a
comment after stripping. -/
def isDataLine (rawline : String) : Bool :=
  !(pyStrip rawline = "" || startsHash (pyStrip rawline))

/-- The whitespace tokens of a stripped line (`items` of line 150). -/
def lineItems (rawline : String) : List String :=
  pySplitWs (pyStrip rawline)

/-- The upper-cased filetype token of a line. -/
def lineFtype (rawline : String) : String :=
  pyUpper ((lineItems rawline).getD 0 "")

/-- The unit token of a line. -/
def lineKeytok (rawline : String) : String :=
  (lineItems rawline).getD 1 ""

/-- The normalised path token of a line (before workspace joining). -/
def linePath (rawline : String) : String :=
  normPath ((lineItems rawline).getD 2 "")

/-- The open mode a line's filetype selects. -/
def lineMode (rawline : String) : String :=
  if lineFtype rawline = "DATA(BINARY)" then "rb" else "r"

/-- The registry key a well-formed line determines (`none` for skipped
or malformed lines).  Key resolution depends only on the tokens and the
package registry, never on the filesystem. -/
def lineKeyOf (packages : Packages) (rawline : String) : Option RegKey :=
  if isDataLine rawline then
    if (lineItems rawline).length < 3 then none
    else
      match pyInt (lineKeytok rawline) with
      | none => none
      | some n => some (resolveKey packages (lineFtype rawline) n)
  else none

/-- A filesystem on which every path is an existing regular file and
every `open` succeeds. -/
def fsAllGood : FS :=
  ⟨fun _ => true, fun _ => true, fun _ => some [], fun _ _ => true⟩

/-- A filesystem on which `missing.dat` style paths resolve (the file
"exists") but no `open` ever succeeds. -/
def fsNoOpen : FS :=
  ⟨fun _ => true, fun _ => true, fun _ => some [], fun _ _ => false⟩

/-- The spec's words for rejoining: segments joined by inserting the
host's native separator between consecutive segments. -/
def sepIntercalate : List String → String
  | [] => ""
  | [a] => a
  | a :: rest => a ++ "/" ++ sepIntercalate rest

/-- The spec's path normalisation (§4.1 as worded): strip all quotes,
split on the detected separator, rejoin with the native separator. -/
def normPathSpec (fpath : String) : String :=
  sepIntercalate (pathSegments (stripQuotes fpath))

/-- A filesystem whose current directory holds two names that differ
only by case, with the target file itself absent. -/
def fsTwoMatches : FS :=
  ⟨fun _ => false, fun _ => false,
   fun dn => if dn = "." then some ["FILE.DAT", "file.dat"] else none,
   fun _ _ => false⟩

/-- A filesystem whose current directory holds only `MODEL.NAM`. -/
def fsCaseDir : FS :=
  ⟨fun _ => false, fun _ => false,
   fun dn => if dn = "." then some ["MODEL.NAM"] else none,
   fun _ _ => false⟩

/-- A filesystem on which only the manifest resolves and no directory
can be listed. -/
def fsNoList : FS :=
  ⟨fun p => p = "m.nam", fun _ => false, fun _ => none, fun _ _ => false⟩

/-! ## C7: registry size, order and key uniqueness -/

/-- Effect of one `dictInsert` on the key sequence. -/
def insKey (ks : List RegKey) (k : RegKey) : List RegKey :=
  if k ∈ ks then ks else ks ++ [k]

/-- A filesystem on which nothing exists at all. -/
def fsNone : FS :=
  ⟨fun _ => false, fun _ => false, fun _ => none, fun _ _ => false⟩

/-! ## General lemmas -/

/-- The messages a line handler prints never influence the dict/error it
produces: the second component of `processLine` ignores `verbose`. -/
theorem processLine_snd_verbose (fs : FS) (packages : Packages)
    (cf : Option String) (gfa : String → String → String) (ws : String)
    (v v' : Bool) (ln : Nat) (raw : String) (d : Registry) :
    (processLine fs packages cf gfa ws v ln raw d).2 =
      (processLine fs packages cf gfa ws v' ln raw d).2 := by
  simp only [processLine]
  split
  · rfl
  · split
    · rfl
    · split
      · rfl
      · split
        · rfl
        · rfl

theorem parseLines_snd_verbose (fs : FS) (packages : Packages)
    (cf : Option String) (gfa : String → String → String) (ws : String)
    (v v' : Bool) :
    ∀ (pairs : List (Nat × String)) (d : Registry),
      (parseLines fs packages cf gfa ws v pairs d).2 =
        (parseLines fs packages cf gfa ws v' pairs d).2
  | [], _ => rfl
  | (ln, raw) :: rest, d => by
    have h := processLine_snd_verbose fs packages cf gfa ws v v' ln raw d
    simp only [parseLines]
    rw [h]
    cases hr : (processLine fs packages cf gfa ws v' ln raw d).2 with
    | error e => rfl
    | ok d' =>
      simpa using parseLines_snd_verbose fs packages cf gfa ws v v' rest d'

/-- First-match characterisation of `List.find?`. -/
theorem find?_first_index {α : Type} (p : α → Bool) :
    ∀ (l : List α) (a : α), l.find? p = some a →
      ∃ i, ∃ h : i < l.length, l.get ⟨i, h⟩ = a ∧ p a = true ∧
        ∀ j, ∀ hj : j < l.length, j < i → p (l.get ⟨j, hj⟩) = false
  | [], a => by simp
  | b :: t, a => by
    intro hfind
    cases hp : p b with
    | true =>
      rw [List.find?_cons_of_pos _ hp] at hfind
      obtain rfl : b = a := by simpa using hfind
      refine ⟨0, by simp, by simp, hp, ?_⟩
      intro j hj hlt; omega
    | false =>
      rw [List.find?_cons_of_neg _ (by simp [hp])] at hfind
      obtain ⟨i, h, hget, hpa, hprev⟩ := find?_first_index p t a hfind
      refine ⟨i + 1, by simpa using h, by simpa using hget, hpa, ?_⟩
      intro j hj hlt
      cases j with
      | zero => exact hp
      | succ j' =>
        exact hprev j' (by simpa using hj) (by omega)

/-! ## C9: verbose does not influence the result -/

/-- C9: for every manifest and fixed collaborator state, two runs of
`parsenamefile` that differ only in the `verbose` flag return the same
outcome — identical registries (same keys, same order, same entry
fields) or the same raised error; `verbose` influences only the printed
messages. -/
theorem c9_verbose_noninterference (fs : FS) (packages : Packages)
    (cf : Option String) (gfa : String → String → String) (ws : String)
    (nam : String) (lines : List String) (v v' : Bool) :
    (parsenamefile fs packages cf gfa ws v nam lines).2 =
      (parsenamefile fs packages cf gfa ws v' nam lines).2 := by
  simp only [parsenamefile]
  split
  · rfl
  · simpa using
      parseLines_snd_verbose fs packages cf gfa ws v v' (enumFromOne 1 lines) []

/-! ## C8: first-match unit lookup -/

/-- C8: `getfiletypeunit` scans the registry entries in insertion order
comparing stored filetypes to the query case-insensitively; it returns
the key of the first matching entry; when no entry matches it returns
`none` together with a printed (never raised) message; when duplicate
filetypes exist under different keys the first in insertion order wins. -/
theorem c8_first_match_lookup (nf : Registry) (ft : String) :
    (∀ k, (getfiletypeunit nf ft).2 = some k →
      ∃ i, ∃ h : i < nf.length,
        pyLower (nf.get ⟨i, h⟩).2.filetype = pyLower ft ∧
        (nf.get ⟨i, h⟩).1 = k ∧
        ∀ j, ∀ hj : j < nf.length, j < i →
          pyLower (nf.get ⟨j, hj⟩).2.filetype ≠ pyLower ft) ∧
    ((getfiletypeunit nf ft).2 = none ↔
      ∀ p ∈ nf, pyLower p.2.filetype ≠ pyLower ft) ∧
    ((getfiletypeunit nf ft).2 = none →
      (getfiletypeunit nf ft).1 =
        ["Name file does not contain file of type \"" ++ ft ++ "\""]) := by
  unfold getfiletypeunit
  cases hf : nf.find? (fun p => pyLower p.2.filetype = pyLower ft) with
  | some p =>
    refine ⟨?_, ?_, ?_⟩
    · intro k hk
      obtain rfl : p.1 = k := by simpa using hk
      obtain ⟨i, h, hget, hpa, hprev⟩ :=
        find?_first_index (fun q => pyLower q.2.filetype = pyLower ft) nf p hf
      refine ⟨i, h, ?_, by rw [hget], ?_⟩
      · rw [hget]; simpa using hpa
      · intro j hj hlt
        have := hprev j hj hlt
        simpa using this
    · simp only [reduceCtorEq, false_iff]
      intro hall
      have hmem := List.mem_of_find?_eq_some hf
      have hp := List.find?_some hf
      exact hall p hmem (by simpa using hp)
    · intro h; simp at h
  | none =>
    refine ⟨?_, ?_, ?_⟩
    · intro k hk; simp at hk
    · simp only [true_iff]
      intro p hp
      have := List.find?_eq_none.mp hf p hp
      simpa using this
    · intro _; rfl

theorem c8_first_match_lookup_witness :
    (getfiletypeunit nfWelExample "wel").2 = some (RegKey.num 11) ∧
    (∃ i, ∃ h : i < nfWelExample.length,
      pyLower (nfWelExample.get ⟨i, h⟩).2.filetype = pyLower "wel" ∧
      (nfWelExample.get ⟨i, h⟩).1 = RegKey.num 11 ∧
      ∀ j, ∀ hj : j < nfWelExample.length, j < i →
        pyLower (nfWelExample.get ⟨j, hj⟩).2.filetype ≠ pyLower "wel") :=
  ⟨by decide,
    (c8_first_match_lookup nfWelExample "wel").1 (RegKey.num 11) (by decide)⟩

/-- Anatomy of a successful `processLine` call: either the line was
skipped, or it was a well-formed data line and the dict received exactly
one entry under the resolved key. -/
theorem processLine_ok_cases (fs : FS) (packages : Packages)
    (cf : Option String) (gfa : String → String → String) (ws : String)
    (v : Bool) (ln : Nat) (raw : String) (d : Registry)
    (msgs : List String) (d' : Registry)
    (hok : processLine fs packages cf gfa ws v ln raw d = (msgs, .ok d')) :
    (isDataLine raw = false ∧ d' = d ∧ msgs = [] ∧
      lineKeyOf packages raw = none) ∨
    (isDataLine raw = true ∧ ¬ (lineItems raw).length < 3 ∧
      ∃ n fname, pyInt (lineKeytok raw) = some n ∧
        fallbackName fs (resolveFname cf gfa ws (linePath raw)) = .ok fname ∧
        lineKeyOf packages raw =
          some (resolveKey packages (lineFtype raw) n) ∧
        d' = dictInsert d (resolveKey packages (lineFtype raw) n)
          ⟨lineFtype raw, fname,
            if fs.canOpen fname (lineMode raw) then
              some (fname, lineMode raw) else none⟩ ∧
        msgs = (if !(fs.canOpen fname (lineMode raw)) && v then
          ["could not set filehandle to " ++ linePath raw] else [])) := by
  simp only [processLine] at hok
  split at hok
  next hskip =>
    simp only [Prod.mk.injEq, Except.ok.injEq] at hok
    obtain ⟨hm, hd⟩ := hok
    left
    refine ⟨by simp [isDataLine, hskip], hd.symm, hm.symm, ?_⟩
    simp [lineKeyOf, isDataLine, hskip]
  next hskip =>
    split at hok
    next hlen => simp at hok
    next hlen =>
      split at hok
      next e heq => simp at hok
      next fname heq =>
        split at hok
        next hint => simp at hok
        next n hint =>
          simp only [Prod.mk.injEq, Except.ok.injEq] at hok
          obtain ⟨hm, hd⟩ := hok
          have hskip' : (decide (pyStrip raw = "") || startsHash (pyStrip raw))
              = false := Bool.eq_false_iff.mpr hskip
          have hdata : isDataLine raw = true := by
            simp only [isDataLine, hskip', Bool.not_false]
          right
          refine ⟨hdata, by simpa [lineItems] using hlen,
            n, fname, by simpa [lineKeytok, lineItems] using hint,
            by simpa [linePath, lineItems] using heq, ?_, ?_, ?_⟩
          · simp only [lineKeyOf, hdata, if_true]
            rw [if_neg (by simpa [lineItems] using hlen)]
            rw [show pyInt (lineKeytok raw) = some n from
              by simpa [lineKeytok, lineItems] using hint]
          · rw [← hd]
            rfl
          · rw [← hm]
            rfl

/-! ## C1: key resolution -/

/-- C1: for every well-formed data line, the registry key is the parsed
unit integer when nonzero; for a parsed `0` it is the reserved unit of
the (lower-cased) filetype when that is in the package registry, and
otherwise the literal upper-cased filetype string. -/
theorem c1_key_resolution (fs : FS) (packages : Packages)
    (cf : Option String) (gfa : String → String → String) (ws : String)
    (v : Bool) (ln : Nat) (raw : String) (d : Registry)
    (msgs : List String) (d' : Registry) (n : Int)
    (hok : processLine fs packages cf gfa ws v ln raw d = (msgs, .ok d'))
    (hdata : isDataLine raw = true)
    (hn : pyInt (lineKeytok raw) = some n) :
    ∃ entry : NamData, entry.filetype = lineFtype raw ∧
      (n ≠ 0 → d' = dictInsert d (RegKey.num n) entry) ∧
      (n = 0 → ∀ u, lookupPkg packages (pyLower (lineFtype raw)) = some u →
        d' = dictInsert d (RegKey.num u) entry) ∧
      (n = 0 → lookupPkg packages (pyLower (lineFtype raw)) = none →
        d' = dictInsert d (RegKey.str (lineFtype raw)) entry) := by
  rcases processLine_ok_cases fs packages cf gfa ws v ln raw d msgs d' hok with
    ⟨hskip, _⟩ | ⟨_, _, n', fname, hn', hfb, _, hd, _⟩
  · rw [hskip] at hdata; cases hdata
  · obtain rfl : n' = n := by
      have := hn'.symm.trans hn
      simpa using this
    refine ⟨⟨lineFtype raw, fname,
      if fs.canOpen fname (lineMode raw) then some (fname, lineMode raw)
      else none⟩, rfl, ?_, ?_, ?_⟩
    · intro hne
      rw [hd]
      simp [resolveKey, hne]
    · intro h0 u hu
      subst h0
      rw [hd]
      simp [resolveKey, hu]
    · intro h0 hu
      subst h0
      rw [hd]
      simp [resolveKey, hu]

theorem c1_key_resolution_witness :
    isDataLine "WEL 0 wel.dat" = true ∧
    pyInt (lineKeytok "WEL 0 wel.dat") = some 0 ∧
    ∃ entry : NamData, entry.filetype = lineFtype "WEL 0 wel.dat" ∧
      ((0 : Int) ≠ 0 →
        [(RegKey.num 20,
          NamData.mk "WEL" "./wel.dat" (some ("./wel.dat", "r")))] =
          dictInsert [] (RegKey.num 0) entry) ∧
      ((0 : Int) = 0 → ∀ u,
        lookupPkg [("wel", 20)] (pyLower (lineFtype "WEL 0 wel.dat")) = some u →
        [(RegKey.num 20,
          NamData.mk "WEL" "./wel.dat" (some ("./wel.dat", "r")))] =
          dictInsert [] (RegKey.num u) entry) ∧
      ((0 : Int) = 0 →
        lookupPkg [("wel", 20)] (pyLower (lineFtype "WEL 0 wel.dat")) = none →
        [(RegKey.num 20,
          NamData.mk "WEL" "./wel.dat" (some ("./wel.dat", "r")))] =
          dictInsert [] (RegKey.str (lineFtype "WEL 0 wel.dat")) entry) :=
  ⟨by decide, by decide,
    c1_key_resolution fsAllGood [("wel", 20)] none (fun _ f => f) "." false 1
      "WEL 0 wel.dat" []
      []
      [(RegKey.num 20,
        NamData.mk "WEL" "./wel.dat" (some ("./wel.dat", "r")))]
      0 (by rfl) (by decide) (by decide)⟩

/-- Forward evaluation of `processLine` on a well-formed data line whose
path resolution (fallback included) produced `fname`. -/
theorem processLine_eval (fs : FS) (packages : Packages)
    (cf : Option String) (gfa : String → String → String) (ws : String)
    (v : Bool) (ln : Nat) (raw : String) (d : Registry)
    (fname : String) (n : Int)
    (hdata : isDataLine raw = true)
    (hlen : ¬ (lineItems raw).length < 3)
    (hn : pyInt (lineKeytok raw) = some n)
    (hfb : fallbackName fs (resolveFname cf gfa ws (linePath raw)) = .ok fname) :
    processLine fs packages cf gfa ws v ln raw d =
      ((if !(fs.canOpen fname (lineMode raw)) && v then
          ["could not set filehandle to " ++ linePath raw] else []),
       .ok (dictInsert d (resolveKey packages (lineFtype raw) n)
        ⟨lineFtype raw, fname,
          if fs.canOpen fname (lineMode raw) then some (fname, lineMode raw)
          else none⟩)) := by
  have hcond : (decide (pyStrip raw = "") || startsHash (pyStrip raw))
      = false := by
    have := hdata
    simp only [isDataLine, Bool.not_eq_true'] at this
    exact this
  simp only [lineItems] at hlen
  simp only [lineKeytok, lineItems] at hn
  simp only [linePath, lineItems] at hfb
  simp only [processLine, hcond, Bool.false_eq_true, if_false, if_neg hlen,
    hfb, hn, lineMode, lineFtype, lineItems, linePath]

/-! ## C3: open failure is recoverable -/

/-- C3: a well-formed data line whose resolved file cannot be opened
does not fail the parse: the diagnostic message appears exactly when
`verbose` is true, the line's registry entry is inserted with an absent
handle, and the loop continues with the remaining lines. -/
theorem c3_open_failure_recoverable (fs : FS) (packages : Packages)
    (cf : Option String) (gfa : String → String → String) (ws : String)
    (v : Bool) (ln : Nat) (raw : String) (d : Registry)
    (rest : List (Nat × String)) (fname : String) (n : Int)
    (hdata : isDataLine raw = true)
    (hlen : ¬ (lineItems raw).length < 3)
    (hn : pyInt (lineKeytok raw) = some n)
    (hfb : fallbackName fs (resolveFname cf gfa ws (linePath raw)) = .ok fname)
    (hopen : fs.canOpen fname (lineMode raw) = false) :
    processLine fs packages cf gfa ws v ln raw d =
      ((if v then ["could not set filehandle to " ++ linePath raw] else []),
       .ok (dictInsert d (resolveKey packages (lineFtype raw) n)
        ⟨lineFtype raw, fname, none⟩)) ∧
    (parseLines fs packages cf gfa ws v ((ln, raw) :: rest) d).2 =
      (parseLines fs packages cf gfa ws v rest
        (dictInsert d (resolveKey packages (lineFtype raw) n)
          ⟨lineFtype raw, fname, none⟩)).2 := by
  have hpl := processLine_eval fs packages cf gfa ws v ln raw d fname n
    hdata hlen hn hfb
  rw [hopen] at hpl
  simp only [Bool.not_false, Bool.true_and, if_neg, Bool.false_eq_true,
    if_false] at hpl
  constructor
  · exact hpl
  · simp only [parseLines, hpl]

theorem c3_open_failure_recoverable_witness :
    isDataLine "WEL 11 missing.dat" = true ∧
    fsNoOpen.canOpen "./missing.dat" (lineMode "WEL 11 missing.dat") = false ∧
    (processLine fsNoOpen [] none (fun _ f => f) "." true 1
        "WEL 11 missing.dat" [] =
      ((if true then
          ["could not set filehandle to " ++ linePath "WEL 11 missing.dat"]
        else []),
       .ok (dictInsert [] (resolveKey [] (lineFtype "WEL 11 missing.dat") 11)
        ⟨lineFtype "WEL 11 missing.dat", "./missing.dat", none⟩)) ∧
    (parseLines fsNoOpen [] none (fun _ f => f) "." true
        [(1, "WEL 11 missing.dat")] []).2 =
      (parseLines fsNoOpen [] none (fun _ f => f) "." true []
        (dictInsert [] (resolveKey [] (lineFtype "WEL 11 missing.dat") 11)
          ⟨lineFtype "WEL 11 missing.dat", "./missing.dat", none⟩)).2) :=
  ⟨by decide, by decide,
    c3_open_failure_recoverable fsNoOpen [] none (fun _ f => f) "." true 1
      "WEL 11 missing.dat" [] [] "./missing.dat" 11
      (by decide) (by decide) (by rfl) (by rfl) (by decide)⟩

/-! ## C10: negative unit numbers are accepted -/

/-- C10: a well-formed data line whose unit token parses to a negative
integer is accepted without error and its entry is keyed by that
negative integer — no validation rejects negative unit numbers. -/
theorem c10_negative_units (fs : FS) (packages : Packages)
    (cf : Option String) (gfa : String → String → String) (ws : String)
    (v : Bool) (ln : Nat) (raw : String) (d : Registry)
    (fname : String) (n : Int)
    (hdata : isDataLine raw = true)
    (hlen : ¬ (lineItems raw).length < 3)
    (hn : pyInt (lineKeytok raw) = some n)
    (hneg : n < 0)
    (hfb : fallbackName fs (resolveFname cf gfa ws (linePath raw)) = .ok fname) :
    ∃ msgs entry, entry.filetype = lineFtype raw ∧
      processLine fs packages cf gfa ws v ln raw d =
        (msgs, .ok (dictInsert d (RegKey.num n) entry)) := by
  have hpl := processLine_eval fs packages cf gfa ws v ln raw d fname n
    hdata hlen hn hfb
  have hkey : resolveKey packages (lineFtype raw) n = RegKey.num n := by
    simp [resolveKey, show n ≠ 0 by omega]
  rw [hkey] at hpl
  exact ⟨_, _, rfl, hpl⟩

theorem c10_negative_units_witness :
    pyInt (lineKeytok "GHB -5 g.dat") = some (-5) ∧ (-5 : Int) < 0 ∧
    ∃ msgs entry, entry.filetype = lineFtype "GHB -5 g.dat" ∧
      processLine fsAllGood [] none (fun _ f => f) "." false 1
          "GHB -5 g.dat" [] =
        (msgs, .ok (dictInsert [] (RegKey.num (-5)) entry)) :=
  ⟨by decide, by decide,
    c10_negative_units fsAllGood [] none (fun _ f => f) "." false 1
      "GHB -5 g.dat" [] "./g.dat" (-5)
      (by decide) (by decide) (by rfl) (by decide) (by rfl)⟩

/-! ## C5: path normalisation -/

/-- The splitter `splitPred` never returns an empty list of segments. -/
theorem splitPred_ne_nil (p : Char → Bool) :
    ∀ l : List Char, splitPred p l ≠ []
  | [] => by simp [splitPred]
  | c :: rest => by
    simp only [splitPred]
    split
    · simp
    · split
      · simp
      · simp

/-- Every character of a segment of `splitPred p l` is a character
of `l`. -/
theorem splitPred_subset (p : Char → Bool) :
    ∀ (l : List Char) (seg : List Char), seg ∈ splitPred p l →
      ∀ c ∈ seg, c ∈ l
  | [], seg, hseg => by
    simp only [splitPred, List.mem_singleton] at hseg
    subst hseg
    simp
  | x :: t, seg, hseg => by
    simp only [splitPred] at hseg
    split at hseg
    · rcases List.mem_cons.mp hseg with rfl | hseg'
      · simp
      · intro c hc
        exact List.mem_cons_of_mem x (splitPred_subset p t seg hseg' c hc)
    · rename_i hx
      split at hseg
      · rename_i habs
        exact absurd habs (splitPred_ne_nil p t)
      · rename_i s ss hr
        rcases List.mem_cons.mp hseg with rfl | hseg'
        · intro c hc
          rcases List.mem_cons.mp hc with rfl | hc'
          · simp
          · have hs : s ∈ splitPred p t := by rw [hr]; simp
            exact List.mem_cons_of_mem x (splitPred_subset p t s hs c hc')
        · have hseg'' : seg ∈ splitPred p t := by rw [hr]; simp [hseg']
          intro c hc
          exact List.mem_cons_of_mem x (splitPred_subset p t seg hseg'' c hc)

/-- No character of a segment of `splitPred p l` satisfies `p`. -/
theorem splitPred_not_p (p : Char → Bool) :
    ∀ (l : List Char) (seg : List Char), seg ∈ splitPred p l →
      ∀ c ∈ seg, p c = false
  | [], seg, hseg => by
    simp only [splitPred, List.mem_singleton] at hseg
    subst hseg
    simp
  | x :: t, seg, hseg => by
    simp only [splitPred] at hseg
    split at hseg
    · rcases List.mem_cons.mp hseg with rfl | hseg'
      · simp
      · exact splitPred_not_p p t seg hseg'
    · rename_i hx
      split at hseg
      · rename_i habs
        exact absurd habs (splitPred_ne_nil p t)
      · rename_i s ss hr
        rcases List.mem_cons.mp hseg with rfl | hseg'
        · intro c hc
          rcases List.mem_cons.mp hc with rfl | hc'
          · exact Bool.eq_false_iff.mpr hx
          · have hs : s ∈ splitPred p t := by rw [hr]; simp
            exact splitPred_not_p p t s hs c hc'
        · have hseg'' : seg ∈ splitPred p t := by rw [hr]; simp [hseg']
          exact splitPred_not_p p t seg hseg''

/-- A nonempty string has a nonempty character list. -/
theorem data_ne_nil_of_ne_empty (s : String) (h : s ≠ "") : s.data ≠ [] := by
  intro hd
  exact h (String.ext hd)

/-- A slash-free string does not start with a slash. -/
theorem startsWithSlash_eq_false (b : String) (h : '/' ∉ b.data) :
    startsWithSlash b = false := by
  unfold startsWithSlash
  split
  · rename_i t heq
    exact absurd (by rw [heq]; exact List.mem_cons_self '/' t) h
  · rfl

/-- A string ending in a nonempty slash-free suffix does not end with a
slash. -/
theorem endsWithSlash_append_eq_false (a b : String) (hb : b.data ≠ [])
    (h : '/' ∉ b.data) : endsWithSlash (a ++ b) = false := by
  unfold endsWithSlash
  rw [String.data_append, List.getLast?_append]
  cases hlast : b.data.getLast? with
  | none => exact absurd (List.getLast?_eq_none_iff.mp hlast) hb
  | some c =>
    have hc : c ∈ b.data := List.mem_of_getLast?_eq_some hlast
    have hcne : c ≠ '/' := fun he => h (he ▸ hc)
    simp [Option.or, hcne]

/-- A slash-free string does not end with a slash. -/
theorem endsWithSlash_eq_false (b : String) (hb : b.data ≠ [])
    (h : '/' ∉ b.data) : endsWithSlash b = false := by
  have := endsWithSlash_append_eq_false "" b hb h
  simpa using this

/-- When neither collapse case fires, `posixpath.join` inserts the
separator. -/
theorem joinTwo_eq_sep_append (a b : String) (ha : a ≠ "")
    (ha2 : endsWithSlash a = false) (hb : startsWithSlash b = false) :
    joinTwo a b = a ++ "/" ++ b := by
  unfold joinTwo
  rw [hb]
  simp only [Bool.false_eq_true, if_false]
  rw [if_neg (by simp [ha, ha2])]

/-- On nonempty slash-free segments, the `posixpath.join` fold agrees
with plain separator intercalation. -/
theorem joinList_eq_sepIntercalate :
    ∀ (rest : List String) (a : String), a ≠ "" →
      endsWithSlash a = false →
      (∀ b ∈ rest, b ≠ "" ∧ '/' ∉ b.data) →
      joinList a rest = sepIntercalate (a :: rest)
  | [], a, _, _, _ => rfl
  | b :: rest, a, ha, ha2, hall => by
    obtain ⟨hb, hbsl⟩ := hall b (List.mem_cons_self b rest)
    have hbd : b.data ≠ [] := data_ne_nil_of_ne_empty b hb
    have h1 : joinTwo a b = a ++ "/" ++ b :=
      joinTwo_eq_sep_append a b ha ha2 (startsWithSlash_eq_false b hbsl)
    have hne : a ++ "/" ++ b ≠ "" := by
      intro h
      exact hbd (by simpa using congrArg String.data h)
    have hends : endsWithSlash (a ++ "/" ++ b) = false :=
      endsWithSlash_append_eq_false (a ++ "/") b hbd hbsl
    rw [joinList, h1, joinList_eq_sepIntercalate rest (a ++ "/" ++ b) hne hends
      (fun x hx => hall x (List.mem_cons_of_mem b hx))]
    cases rest with
    | nil => rfl
    | cons c cs => simp [sepIntercalate, String.append_assoc]

/-- The test `pyContains` decides character membership. -/
theorem pyContains_iff (s : String) (c : Char) :
    pyContains s c = true ↔ c ∈ s.data := by
  simp [pyContains, List.contains, List.elem_iff]

/-- The separator split never returns an empty segment list. -/
theorem pathSegments_ne_nil (f : String) : pathSegments f ≠ [] := by
  unfold pathSegments
  split
  · simp [pySplitChar, splitPred_ne_nil]
  · split
    · simp [pySplitChar, splitPred_ne_nil]
    · simp

/-- No segment produced by `pathSegments` contains a `/`. -/
theorem pathSegments_no_slash (f : String) :
    ∀ seg ∈ pathSegments f, '/' ∉ seg.data := by
  unfold pathSegments
  split
  · intro seg hseg hmem
    obtain ⟨l, hl, rfl⟩ := List.mem_map.mp hseg
    have := splitPred_not_p (fun c => c = '/') f.data l hl '/' hmem
    simp at this
  · rename_i hnos
    split
    · intro seg hseg hmem
      obtain ⟨l, hl, rfl⟩ := List.mem_map.mp hseg
      have hin := splitPred_subset (fun c => c = '\\') f.data l hl '/' hmem
      exact hnos (pyContains_iff f '/' |>.mpr hin)
    · intro seg hseg hmem
      rw [List.mem_singleton] at hseg
      rw [hseg] at hmem
      exact hnos (pyContains_iff f '/' |>.mpr hmem)

/-- C5 counterexample: for the token `a//b` the parser's rejoin
(`os.path.join(*raw)`) collapses the empty middle segment, so the
resolved path differs from the spec's plain separator rejoin. -/
theorem c5_counterexample :
    normPath "a//b" ≠ normPathSpec "a//b" ∧
    normPath "a//b" = "a/b" ∧ normPathSpec "a//b" = "a//b" ∧
    resolveFname none (fun _ f => f) "." (normPath "a//b") ≠
      joinTwo "." (normPathSpec "a//b") := by
  refine ⟨by decide, by decide, by decide, by decide⟩

/-- C5 (amended): quote characters are removed everywhere, the token is
split on `/` when present, else on `\`, else kept whole; provided every
resulting segment is nonempty, the segments are rejoined with the host's
native separator, and with no control file the result is joined under
the workspace. -/
theorem c5_path_resolution (gfa : String → String → String) (ws tok : String)
    (h : ∀ seg ∈ pathSegments (stripQuotes tok), seg ≠ "") :
    normPath tok = normPathSpec tok ∧
    resolveFname none gfa ws (normPath tok) = joinTwo ws (normPathSpec tok) := by
  have key : normPath tok = normPathSpec tok := by
    unfold normPath normPathSpec
    cases hsegs : pathSegments (stripQuotes tok) with
    | nil => exact absurd hsegs (pathSegments_ne_nil _)
    | cons a rest =>
      have hmem : ∀ b ∈ a :: rest, b ∈ pathSegments (stripQuotes tok) := by
        intro b hb; rw [hsegs]; exact hb
      have ha : a ≠ "" := h a (hmem a (List.mem_cons_self a rest))
      have hasl : '/' ∉ a.data :=
        pathSegments_no_slash _ a (hmem a (List.mem_cons_self a rest))
      have ha2 : endsWithSlash a = false :=
        endsWithSlash_eq_false a (data_ne_nil_of_ne_empty a ha) hasl
      simp only [joinAll]
      exact joinList_eq_sepIntercalate rest a ha ha2
        (fun b hb => ⟨h b (hmem b (List.mem_cons_of_mem a hb)),
          pathSegments_no_slash _ b (hmem b (List.mem_cons_of_mem a hb))⟩)
  exact ⟨key, by rw [key]; rfl⟩

theorem c5_path_resolution_witness :
    (∀ seg ∈ pathSegments (stripQuotes "sub/dir/file.dat"), seg ≠ "") ∧
    normPath "sub/dir/file.dat" = normPathSpec "sub/dir/file.dat" ∧
    resolveFname none (fun _ f => f) "ws" (normPath "sub/dir/file.dat") =
      joinTwo "ws" (normPathSpec "sub/dir/file.dat") :=
  ⟨by decide,
    (c5_path_resolution (fun _ f => f) "ws" "sub/dir/file.dat" (by decide)).1,
    (c5_path_resolution (fun _ f => f) "ws" "sub/dir/file.dat" (by decide)).2⟩

/-! ## C6 and C4: the case-insensitive fallback -/

/-- Converse first-match lemma: an element matching at position `i` with
no earlier match is what `find?` returns. -/
theorem find?_of_first_index {α : Type} (p : α → Bool) :
    ∀ (l : List α) (i : Nat) (h : i < l.length),
      p (l.get ⟨i, h⟩) = true →
      (∀ j, j < i → ∀ hj : j < l.length, p (l.get ⟨j, hj⟩) = false) →
      l.find? p = some (l.get ⟨i, h⟩)
  | [], i, h => by simp at h
  | b :: t, 0, h => by
    intro hp _
    exact List.find?_cons_of_pos _ hp
  | b :: t, i + 1, h => by
    intro hp hprev
    have hb : p b = false := hprev 0 (Nat.succ_pos i) (by simp)
    rw [List.find?_cons_of_neg _ (by simp [hb])]
    exact find?_of_first_index p t i (by simpa using h) (by simpa using hp)
      (fun j hj hjl => by simpa using hprev (j + 1) (by omega) (by simpa using hjl))

/-- The fallback when the resolved name is not an existing regular file
and the parent directory cannot be listed: the `OSError` propagates. -/
theorem fallbackName_listdir_none (fs : FS) (fname : String)
    (hne : fs.isfile fname = false ∨ fs.pathExists fname = false)
    (hls : fs.listdir (dirname fname) = none) :
    fallbackName fs fname = .error (.listdirFailed (dirname fname)) := by
  have hcond : (!fs.isfile fname || !fs.pathExists fname) = true := by
    rcases hne with h | h <;> simp [h]
  simp only [fallbackName, hcond, if_true, hls]

/-- The fallback when the parent directory lists but holds no
case-insensitive match: the unmodified name is kept. -/
theorem fallbackName_no_match (fs : FS) (fname : String) (fls : List String)
    (hne : fs.isfile fname = false ∨ fs.pathExists fname = false)
    (hls : fs.listdir (dirname fname) = some fls)
    (hall : ∀ f ∈ fls, pyLower f ≠ pyLower (basename fname)) :
    fallbackName fs fname = .ok fname := by
  have hcond : (!fs.isfile fname || !fs.pathExists fname) = true := by
    rcases hne with h | h <;> simp [h]
  have hfind : fls.find?
      (fun f => pyLower f = pyLower (basename fname)) = none :=
    List.find?_eq_none.mpr (fun x hx => by simpa using hall x hx)
  simp only [fallbackName, hcond, if_true, hls, hfind]

/-- The fallback substitutes the first (in listing order) entry whose
lower-cased name equals the lower-cased basename. -/
theorem fallbackName_first_match (fs : FS) (fname : String)
    (fls : List String) (i : Nat) (h : i < fls.length)
    (hne : fs.isfile fname = false ∨ fs.pathExists fname = false)
    (hls : fs.listdir (dirname fname) = some fls)
    (hmatch : pyLower (fls.get ⟨i, h⟩) = pyLower (basename fname))
    (hprev : ∀ j, j < i → ∀ hj : j < fls.length,
      pyLower (fls.get ⟨j, hj⟩) ≠ pyLower (basename fname)) :
    fallbackName fs fname = .ok (joinTwo (dirname fname) (fls.get ⟨i, h⟩)) := by
  have hcond : (!fs.isfile fname || !fs.pathExists fname) = true := by
    rcases hne with h' | h' <;> simp [h']
  have hfind := find?_of_first_index
    (fun f => pyLower f = pyLower (basename fname)) fls i h
    (by simpa using hmatch) (fun j hj hjl => by simpa using hprev j hj hjl)
  simp only [fallbackName, hcond, if_true, hls, hfind]

/-- C6 counterexample: with two case-insensitive matches in the parent
directory, the code substitutes the first listed entry, not the
unmodified path the claim requires. -/
theorem c6_counterexample :
    ((fsTwoMatches.listdir (dirname "./File.dat")).getD []).countP
      (fun f => pyLower f = pyLower (basename "./File.dat")) = 2 ∧
    fallbackName fsTwoMatches "./File.dat" = .ok "./FILE.DAT" ∧
    "./FILE.DAT" ≠ "./File.dat" :=
  ⟨by decide, by rfl, by decide⟩

/-- C6 (amended): when the resolved path is not an existing regular file
and its parent directory lists, the fallback substitutes the first entry
(in listing order) whose lower-cased name equals the lower-cased target
basename; with zero matches the unmodified path is used. -/
theorem c6_first_match_fallback (fs : FS) (fname : String)
    (fls : List String)
    (hne : fs.isfile fname = false ∨ fs.pathExists fname = false)
    (hls : fs.listdir (dirname fname) = some fls) :
    ((∀ f ∈ fls, pyLower f ≠ pyLower (basename fname)) →
      fallbackName fs fname = .ok fname) ∧
    (∀ i, ∀ h : i < fls.length,
      pyLower (fls.get ⟨i, h⟩) = pyLower (basename fname) →
      (∀ j, j < i → ∀ hj : j < fls.length,
        pyLower (fls.get ⟨j, hj⟩) ≠ pyLower (basename fname)) →
      fallbackName fs fname =
        .ok (joinTwo (dirname fname) (fls.get ⟨i, h⟩))) :=
  ⟨fun hall => fallbackName_no_match fs fname fls hne hls hall,
   fun i h hmatch hprev =>
     fallbackName_first_match fs fname fls i h hne hls hmatch hprev⟩

theorem c6_first_match_fallback_witness :
    fallbackName fsCaseDir "./model.nam" = .ok "./MODEL.NAM" ∧
    fallbackName fsCaseDir "./other.nam" = .ok "./other.nam" :=
  ⟨by
    have h := (c6_first_match_fallback fsCaseDir "./model.nam" ["MODEL.NAM"]
      (Or.inl (by decide)) (by decide)).2 0 (by decide) (by decide)
      (fun j hj hjl => by omega)
    simpa using h,
   by
    have h := (c6_first_match_fallback fsCaseDir "./other.nam" ["MODEL.NAM"]
      (Or.inl (by decide)) (by decide)).1 (by decide)
    simpa using h⟩

/-- Forward evaluation of `processLine` when path resolution raises. -/
theorem processLine_eval_err (fs : FS) (packages : Packages)
    (cf : Option String) (gfa : String → String → String) (ws : String)
    (v : Bool) (ln : Nat) (raw : String) (d : Registry) (e : ParseError)
    (hdata : isDataLine raw = true)
    (hlen : ¬ (lineItems raw).length < 3)
    (hfb : fallbackName fs (resolveFname cf gfa ws (linePath raw)) =
      .error e) :
    processLine fs packages cf gfa ws v ln raw d = ([], .error e) := by
  have hcond : (decide (pyStrip raw = "") || startsHash (pyStrip raw))
      = false := by
    have := hdata
    simp only [isDataLine, Bool.not_eq_true'] at this
    exact this
  simp only [lineItems] at hlen
  simp only [linePath, lineItems] at hfb
  simp only [processLine, hcond, Bool.false_eq_true, if_false, if_neg hlen,
    hfb]

/-- C4 counterexample: a well-formed data line whose resolved path does
not exist and whose parent directory cannot be listed makes the parse
raise (the unguarded `os.listdir` error), instead of proceeding with the
unmodified path as the claim states. -/
theorem c4_counterexample :
    fsNoList.pathExists
      (resolveFname none (fun _ f => f) "." (linePath "WEL 11 wel.dat"))
      = false ∧
    fsNoList.listdir (dirname
      (resolveFname none (fun _ f => f) "." (linePath "WEL 11 wel.dat")))
      = none ∧
    (parsenamefile fsNoList [] none (fun _ f => f) "." false "m.nam"
      ["WEL 11 wel.dat"]).2 = .error (.listdirFailed ".") :=
  ⟨by decide, by rfl, by rfl⟩

/-- C4 (amended): for a well-formed data line whose resolved path is not
an existing regular file, if the parent directory cannot be listed the
`os.listdir` error aborts the parse; if the directory lists but holds no
case-insensitive match, no error is raised — the unmodified path is
used, and when the open attempt fails the entry is inserted with an
absent handle. -/
theorem c4_listdir_behavior (fs : FS) (packages : Packages)
    (cf : Option String) (gfa : String → String → String) (ws : String)
    (v : Bool) (ln : Nat) (raw : String) (d : Registry) (n : Int)
    (hdata : isDataLine raw = true)
    (hlen : ¬ (lineItems raw).length < 3)
    (hn : pyInt (lineKeytok raw) = some n)
    (hne : fs.isfile (resolveFname cf gfa ws (linePath raw)) = false ∨
      fs.pathExists (resolveFname cf gfa ws (linePath raw)) = false) :
    (fs.listdir (dirname (resolveFname cf gfa ws (linePath raw))) = none →
      processLine fs packages cf gfa ws v ln raw d =
        ([], .error (.listdirFailed
          (dirname (resolveFname cf gfa ws (linePath raw)))))) ∧
    (∀ fls, fs.listdir (dirname (resolveFname cf gfa ws (linePath raw)))
        = some fls →
      (∀ f ∈ fls, pyLower f ≠
        pyLower (basename (resolveFname cf gfa ws (linePath raw)))) →
      fs.canOpen (resolveFname cf gfa ws (linePath raw)) (lineMode raw)
        = false →
      processLine fs packages cf gfa ws v ln raw d =
        ((if v then ["could not set filehandle to " ++ linePath raw]
          else []),
         .ok (dictInsert d (resolveKey packages (lineFtype raw) n)
          ⟨lineFtype raw, resolveFname cf gfa ws (linePath raw), none⟩))) := by
  constructor
  · intro hls
    exact processLine_eval_err fs packages cf gfa ws v ln raw d _ hdata hlen
      (fallbackName_listdir_none fs _ hne hls)
  · intro fls hls hall hopen
    have hfb : fallbackName fs (resolveFname cf gfa ws (linePath raw)) =
        .ok (resolveFname cf gfa ws (linePath raw)) :=
      fallbackName_no_match fs _ fls hne hls hall
    have hpl := processLine_eval fs packages cf gfa ws v ln raw d
      (resolveFname cf gfa ws (linePath raw)) n hdata hlen hn hfb
    rw [hopen] at hpl
    simpa using hpl

theorem c4_listdir_behavior_witness :
    (processLine fsNoList [] none (fun _ f => f) "." false 1
        "WEL 11 wel.dat" [] =
      ([], .error (.listdirFailed
        (dirname (resolveFname none (fun _ f => f) "."
          (linePath "WEL 11 wel.dat")))))) ∧
    (processLine fsCaseDir [] none (fun _ f => f) "." false 1
        "WEL 11 wel.dat" [] =
      ([],
       .ok (dictInsert [] (resolveKey [] (lineFtype "WEL 11 wel.dat") 11)
        ⟨lineFtype "WEL 11 wel.dat",
         resolveFname none (fun _ f => f) "." (linePath "WEL 11 wel.dat"),
         none⟩))) :=
  ⟨(c4_listdir_behavior fsNoList [] none (fun _ f => f) "." false 1
      "WEL 11 wel.dat" [] 11 (by decide) (by decide) (by rfl)
      (Or.inl (by decide))).1 (by rfl),
   by
    have h := (c4_listdir_behavior fsCaseDir [] none (fun _ f => f) "." false
      1 "WEL 11 wel.dat" [] 11 (by decide) (by decide) (by rfl)
      (Or.inl (by decide))).2 ["MODEL.NAM"] (by rfl) (by decide) (by rfl)
    simpa using h⟩

/-- An update by `dictInsert` transforms the key sequence by `insKey`. -/
theorem dictInsert_keys (d : Registry) (k : RegKey) (v : NamData) :
    (dictInsert d k v).map Prod.fst = insKey (d.map Prod.fst) k := by
  by_cases hmem : k ∈ d.map Prod.fst
  · have hany : d.any (fun p => p.1 = k) = true := by
      obtain ⟨p, hp, hpk⟩ := List.mem_map.mp hmem
      exact List.any_eq_true.mpr ⟨p, hp, by simpa using hpk⟩
    rw [dictInsert, if_pos hany, insKey, if_pos hmem, List.map_map]
    apply List.map_congr_left
    intro p _
    by_cases h : p.1 = k <;> simp [h]
  · have hany : d.any (fun p => p.1 = k) = false := by
      rw [List.any_eq_false]
      intro p hp hpk
      exact hmem (List.mem_map.mpr ⟨p, hp, by simpa using hpk⟩)
    rw [dictInsert, if_neg (by simp [hany]), insKey, if_neg hmem]
    simp

/-- Overwriting an existing key does not change the registry's size. -/
theorem dictInsert_length_of_mem (d : Registry) (k : RegKey) (v : NamData)
    (hmem : k ∈ d.map Prod.fst) : (dictInsert d k v).length = d.length := by
  have h := congrArg List.length (dictInsert_keys d k v)
  simp only [List.length_map] at h
  rw [h, insKey, if_pos hmem, List.length_map]

/-- Membership in an `insKey` fold. -/
theorem mem_foldl_insKey :
    ∀ (ks : List RegKey) (init : List RegKey) (x : RegKey),
      x ∈ ks.foldl insKey init ↔ x ∈ init ∨ x ∈ ks
  | [], init, x => by simp
  | k :: ks, init, x => by
    rw [List.foldl_cons, mem_foldl_insKey ks (insKey init k) x]
    unfold insKey
    split
    · rename_i hk
      constructor
      · rintro (h | h)
        · exact Or.inl h
        · exact Or.inr (List.mem_cons_of_mem k h)
      · rintro (h | h)
        · exact Or.inl h
        · rcases List.mem_cons.mp h with rfl | h'
          · exact Or.inl hk
          · exact Or.inr h'
    · simp only [List.mem_append, List.mem_singleton, List.mem_cons]
      tauto

/-- An `insKey` fold over a duplicate-free accumulator stays
duplicate-free. -/
theorem foldl_insKey_nodup :
    ∀ (ks : List RegKey) (init : List RegKey), init.Nodup →
      (ks.foldl insKey init).Nodup
  | [], init, h => h
  | k :: ks, init, h => by
    rw [List.foldl_cons]
    apply foldl_insKey_nodup ks
    unfold insKey
    split
    · exact h
    · rename_i hk
      simpa [List.nodup_append, h] using hk

/-- The length of an `insKey` fold from the empty accumulator is the
number of distinct elements. -/
theorem foldl_insKey_length (ks : List RegKey) :
    (ks.foldl insKey []).length = ks.dedup.length := by
  have hnd : (ks.foldl insKey []).Nodup :=
    foldl_insKey_nodup ks [] List.nodup_nil
  have hfin : (ks.foldl insKey []).toFinset = ks.dedup.toFinset := by
    apply Finset.ext
    intro x
    simp [List.mem_toFinset, mem_foldl_insKey, List.mem_dedup]
  have h1 := List.toFinset_card_of_nodup hnd
  have h2 := List.toFinset_card_of_nodup (List.nodup_dedup ks)
  rw [← h1, hfin, h2]

/-- A skipped line determines no key. -/
theorem lineKeyOf_none_of_not_data (packages : Packages) (raw : String)
    (h : isDataLine raw = false) : lineKeyOf packages raw = none := by
  simp [lineKeyOf, h]

/-- Python `enumerate(lines, 1)` forgets to the original lines. -/
theorem enumFromOne_map_snd :
    ∀ (n : Nat) (ls : List String), (enumFromOne n ls).map Prod.snd = ls
  | _, [] => rfl
  | n, l :: ls => by
    simp only [enumFromOne, List.map_cons]
    rw [enumFromOne_map_snd (n + 1) ls]

/-- Loop invariant for the registry's key sequence: on success the keys
are the `insKey` fold of the keys the processed lines determine, and
every processed data line determined a key. -/
theorem parseLines_ok_keys (fs : FS) (packages : Packages)
    (cf : Option String) (gfa : String → String → String) (ws : String)
    (v : Bool) :
    ∀ (pairs : List (Nat × String)) (d : Registry) (msgs : List String)
      (d' : Registry),
      parseLines fs packages cf gfa ws v pairs d = (msgs, .ok d') →
      d'.map Prod.fst =
        ((pairs.map Prod.snd).filterMap (lineKeyOf packages)).foldl insKey
          (d.map Prod.fst) ∧
      ∀ pr ∈ pairs, isDataLine pr.2 = true →
        (lineKeyOf packages pr.2).isSome
  | [], d, msgs, d' => by
    intro h
    simp only [parseLines, Prod.mk.injEq, Except.ok.injEq] at h
    obtain ⟨-, hd⟩ := h
    subst hd
    simp
  | (ln, raw) :: rest, d, msgs, d' => by
    intro h
    simp only [parseLines] at h
    rcases hpr : processLine fs packages cf gfa ws v ln raw d with ⟨pmsgs, pres⟩
    rw [hpr] at h
    cases pres with
    | error e => simp at h
    | ok dmid =>
      simp only [Prod.mk.injEq] at h
      obtain ⟨-, hsnd⟩ := h
      have hrest : parseLines fs packages cf gfa ws v rest dmid =
          ((parseLines fs packages cf gfa ws v rest dmid).1, Except.ok d') := by
        rw [← hsnd]
      obtain ⟨ihkeys, ihsome⟩ := parseLines_ok_keys fs packages cf gfa ws v
        rest dmid (parseLines fs packages cf gfa ws v rest dmid).1 d' hrest
      rcases processLine_ok_cases fs packages cf gfa ws v ln raw d pmsgs dmid
        hpr with ⟨hskip, rfl, -, hkey⟩ | ⟨hdata, -, n, fname, -, -, hkey, hd, -⟩
      · constructor
        · rw [ihkeys]
          simp [hkey]
        · intro pr hpr'
          rcases List.mem_cons.mp hpr' with rfl | h'
          · intro habs
            rw [hskip] at habs
            cases habs
          · exact ihsome pr h'
      · constructor
        · rw [ihkeys, hd, dictInsert_keys]
          simp [hkey]
        · intro pr hpr'
          rcases List.mem_cons.mp hpr' with rfl | h'
          · intro _
            rw [hkey]
            rfl
          · exact ihsome pr h'

/-- On lines whose data lines all determine keys, the key sequence is
exactly one key per data line. -/
theorem filterMap_lineKeyOf_length (packages : Packages) :
    ∀ ls : List String,
      (∀ l ∈ ls, isDataLine l = true → (lineKeyOf packages l).isSome) →
      (ls.filterMap (lineKeyOf packages)).length =
        (ls.filter isDataLine).length
  | [], _ => rfl
  | l :: ls, hall => by
    have ih := filterMap_lineKeyOf_length packages ls
      (fun x hx => hall x (List.mem_cons_of_mem l hx))
    cases hd : isDataLine l with
    | true =>
      obtain ⟨k, hk⟩ := Option.isSome_iff_exists.mp
        (hall l (List.mem_cons_self l ls) hd)
      simp [List.filterMap_cons, List.filter_cons, hk, hd, ih]
    | false =>
      have hnone := lineKeyOf_none_of_not_data packages l hd
      simp [List.filterMap_cons, List.filter_cons, hnone, hd, ih]

/-- C7: on success the registry has pairwise-distinct keys; its key
sequence is the first-occurrence (`insKey`) fold of the keys the data
lines determine, i.e. insertion order; its size is the number of
distinct keys — the number of non-blank non-comment lines minus one per
duplicate key — and re-inserting an existing key (a duplicate line)
overwrites in place without growing the registry or raising. -/
theorem c7_registry_keys (fs : FS) (packages : Packages)
    (cf : Option String) (gfa : String → String → String) (ws : String)
    (v : Bool) (nam : String) (lines : List String)
    (msgs : List String) (d' : Registry)
    (h : parsenamefile fs packages cf gfa ws v nam lines = (msgs, .ok d')) :
    (d'.map Prod.fst).Nodup ∧
    d'.map Prod.fst =
      (lines.filterMap (lineKeyOf packages)).foldl insKey [] ∧
    d'.length = (lines.filterMap (lineKeyOf packages)).dedup.length ∧
    (lines.filterMap (lineKeyOf packages)).length =
      (lines.filter isDataLine).length ∧
    ∀ (dd : Registry) (k : RegKey) (vv : NamData), k ∈ dd.map Prod.fst →
      (dictInsert dd k vv).length = dd.length := by
  simp only [parsenamefile] at h
  split at h
  · simp at h
  · simp only [Prod.mk.injEq] at h
    obtain ⟨-, hsnd⟩ := h
    have hpl : parseLines fs packages cf gfa ws v (enumFromOne 1 lines) [] =
        ((parseLines fs packages cf gfa ws v (enumFromOne 1 lines) []).1,
          Except.ok d') := by
      rw [← hsnd]
    obtain ⟨hkeys, hsome⟩ := parseLines_ok_keys fs packages cf gfa ws v
      (enumFromOne 1 lines) []
      (parseLines fs packages cf gfa ws v (enumFromOne 1 lines) []).1 d' hpl
    rw [enumFromOne_map_snd] at hkeys
    simp only [List.map_nil] at hkeys
    have hsome' : ∀ l ∈ lines, isDataLine l = true →
        (lineKeyOf packages l).isSome := by
      intro l hl hd
      have hl' : l ∈ (enumFromOne 1 lines).map Prod.snd := by
        rw [enumFromOne_map_snd]; exact hl
      obtain ⟨pr, hpr, hpr2⟩ := List.mem_map.mp hl'
      exact hpr2 ▸ hsome pr hpr (by rw [hpr2]; exact hd)
    refine ⟨?_, hkeys, ?_, filterMap_lineKeyOf_length packages lines hsome',
      fun dd k vv hmem => dictInsert_length_of_mem dd k vv hmem⟩
    · rw [hkeys]
      exact foldl_insKey_nodup _ [] List.nodup_nil
    · have hlen : d'.length = (d'.map Prod.fst).length := by simp
      rw [hlen, hkeys, foldl_insKey_length]

theorem c7_registry_keys_witness :
    (([(RegKey.num 11,
        NamData.mk "GHB" "./b.dat" (some ("./b.dat", "r"))),
       (RegKey.num 12,
        NamData.mk "RIV" "./c.dat" (some ("./c.dat", "r")))] :
          Registry).map Prod.fst).Nodup ∧
    ([(RegKey.num 11,
       NamData.mk "GHB" "./b.dat" (some ("./b.dat", "r"))),
      (RegKey.num 12,
       NamData.mk "RIV" "./c.dat" (some ("./c.dat", "r")))] :
        Registry).map Prod.fst =
      ((["WEL 11 a.dat", "GHB 11 b.dat", "# c", "RIV 12 c.dat"].filterMap
        (lineKeyOf [])).foldl insKey []) ∧
    ([(RegKey.num 11,
       NamData.mk "GHB" "./b.dat" (some ("./b.dat", "r"))),
      (RegKey.num 12,
       NamData.mk "RIV" "./c.dat" (some ("./c.dat", "r")))] :
        Registry).length =
      (["WEL 11 a.dat", "GHB 11 b.dat", "# c", "RIV 12 c.dat"].filterMap
        (lineKeyOf [])).dedup.length ∧
    (["WEL 11 a.dat", "GHB 11 b.dat", "# c", "RIV 12 c.dat"].filterMap
      (lineKeyOf [])).length =
      (["WEL 11 a.dat", "GHB 11 b.dat", "# c", "RIV 12 c.dat"].filter
        isDataLine).length ∧
    ∀ (dd : Registry) (k : RegKey) (vv : NamData), k ∈ dd.map Prod.fst →
      (dictInsert dd k vv).length = dd.length :=
  c7_registry_keys fsAllGood [] none (fun _ f => f) "." false "m.nam"
    ["WEL 11 a.dat", "GHB 11 b.dat", "# c", "RIV 12 c.dat"] []
    [(RegKey.num 11, NamData.mk "GHB" "./b.dat" (some ("./b.dat", "r"))),
     (RegKey.num 12, NamData.mk "RIV" "./c.dat" (some ("./c.dat", "r")))]
    (by rfl)

/-! ## C2: the parser's error surface -/

/-- When `fallbackName` raises, the resolved name was not an existing
regular file and the parent directory could not be listed. -/
theorem fallbackName_error_cases (fs : FS) (fname : String) (e : ParseError)
    (h : fallbackName fs fname = .error e) :
    (fs.isfile fname = false ∨ fs.pathExists fname = false) ∧
    fs.listdir (dirname fname) = none ∧
    e = .listdirFailed (dirname fname) := by
  simp only [fallbackName] at h
  split at h
  · rename_i hc
    refine ⟨?_, ?_, ?_⟩
    · rcases Bool.or_eq_true_iff.mp hc with h' | h'
      · exact Or.inl (by simpa using h')
      · exact Or.inr (by simpa using h')
    · split at h
      · assumption
      · split at h <;> simp at h
    · split at h
      · simpa using h.symm
      · split at h <;> simp at h
  · simp at h

/-- Anatomy of a failing `processLine` call: the line was a data line
and the error is one of too-few-tokens, the unguarded `os.listdir`
failure, or a non-integer unit token. -/
theorem processLine_error_cases (fs : FS) (packages : Packages)
    (cf : Option String) (gfa : String → String → String) (ws : String)
    (v : Bool) (ln : Nat) (raw : String) (d : Registry)
    (msgs : List String) (e : ParseError)
    (hpe : processLine fs packages cf gfa ws v ln raw d = (msgs, .error e)) :
    isDataLine raw = true ∧
    ((e = .tooFewItems ln (pyStrip raw) ∧ (lineItems raw).length < 3) ∨
     (¬ (lineItems raw).length < 3 ∧
      (fs.isfile (resolveFname cf gfa ws (linePath raw)) = false ∨
       fs.pathExists (resolveFname cf gfa ws (linePath raw)) = false) ∧
      fs.listdir (dirname (resolveFname cf gfa ws (linePath raw))) = none ∧
      e = .listdirFailed
        (dirname (resolveFname cf gfa ws (linePath raw)))) ∨
     (¬ (lineItems raw).length < 3 ∧ e = .badUnit ln (pyStrip raw) ∧
      pyInt (lineKeytok raw) = none)) := by
  simp only [processLine] at hpe
  split at hpe
  · simp at hpe
  · rename_i hskip
    have hskip' : (decide (pyStrip raw = "") || startsHash (pyStrip raw))
        = false := Bool.eq_false_iff.mpr hskip
    have hdata : isDataLine raw = true := by
      simp only [isDataLine, hskip', Bool.not_false]
    refine ⟨hdata, ?_⟩
    split at hpe
    · rename_i hlen
      left
      simp only [Prod.mk.injEq, Except.error.injEq] at hpe
      obtain ⟨-, he⟩ := hpe
      exact ⟨he.symm, by simpa [lineItems] using hlen⟩
    · rename_i hlen
      split at hpe
      · rename_i e0 heq
        simp only [Prod.mk.injEq, Except.error.injEq] at hpe
        obtain ⟨-, rfl⟩ := hpe
        obtain ⟨hne, hls, he⟩ := fallbackName_error_cases fs _ e0 heq
        right; left
        exact ⟨by simpa [lineItems] using hlen,
          by simpa [linePath, lineItems] using hne,
          by simpa [linePath, lineItems] using hls,
          by simpa [linePath, lineItems] using he⟩
      · rename_i fname heq
        split at hpe
        · rename_i hint
          simp only [Prod.mk.injEq, Except.error.injEq] at hpe
          obtain ⟨-, rfl⟩ := hpe
          right; right
          exact ⟨by simpa [lineItems] using hlen, rfl,
            by simpa [lineKeytok, lineItems] using hint⟩
        · simp at hpe

/-- Lifting the per-line error anatomy through the loop. -/
theorem parseLines_error_cases (fs : FS) (packages : Packages)
    (cf : Option String) (gfa : String → String → String) (ws : String)
    (v : Bool) :
    ∀ (pairs : List (Nat × String)) (d : Registry) (msgs : List String)
      (e : ParseError),
      parseLines fs packages cf gfa ws v pairs d = (msgs, .error e) →
      ∃ ln raw, (ln, raw) ∈ pairs ∧ isDataLine raw = true ∧
        ((e = .tooFewItems ln (pyStrip raw) ∧ (lineItems raw).length < 3) ∨
         (¬ (lineItems raw).length < 3 ∧
          (fs.isfile (resolveFname cf gfa ws (linePath raw)) = false ∨
           fs.pathExists (resolveFname cf gfa ws (linePath raw)) = false) ∧
          fs.listdir (dirname (resolveFname cf gfa ws (linePath raw)))
            = none ∧
          e = .listdirFailed
            (dirname (resolveFname cf gfa ws (linePath raw)))) ∨
         (¬ (lineItems raw).length < 3 ∧ e = .badUnit ln (pyStrip raw) ∧
          pyInt (lineKeytok raw) = none))
  | [], d, msgs, e => by
    intro h
    simp [parseLines] at h
  | (ln, raw) :: rest, d, msgs, e => by
    intro h
    simp only [parseLines] at h
    rcases hpr : processLine fs packages cf gfa ws v ln raw d with ⟨pmsgs, pres⟩
    rw [hpr] at h
    cases pres with
    | error e0 =>
      simp only [Prod.mk.injEq, Except.error.injEq] at h
      obtain ⟨-, rfl⟩ := h
      obtain ⟨hdata, hcases⟩ := processLine_error_cases fs packages cf gfa ws
        v ln raw d pmsgs e0 hpr
      exact ⟨ln, raw, List.mem_cons_self _ _, hdata, hcases⟩
    | ok dmid =>
      simp only [Prod.mk.injEq] at h
      obtain ⟨-, hsnd⟩ := h
      have hrest : parseLines fs packages cf gfa ws v rest dmid =
          ((parseLines fs packages cf gfa ws v rest dmid).1,
            Except.error e) := by
        rw [← hsnd]
      obtain ⟨ln', raw', hmem, hrests⟩ := parseLines_error_cases fs packages
        cf gfa ws v rest dmid
        (parseLines fs packages cf gfa ws v rest dmid).1 e hrest
      exact ⟨ln', raw', List.mem_cons_of_mem _ hmem, hrests⟩

/-- Membership in `enumerate(lines, n)` recovers the line by index. -/
theorem mem_enumFromOne :
    ∀ (n : Nat) (ls : List String) (ln : Nat) (raw : String),
      (ln, raw) ∈ enumFromOne n ls → n ≤ ln ∧ ls.get? (ln - n) = some raw
  | _, [], ln, raw => by simp [enumFromOne]
  | n, l :: ls, ln, raw => by
    intro h
    rcases List.mem_cons.mp h with heq | h'
    · obtain ⟨rfl, rfl⟩ : ln = n ∧ raw = l := by
        simpa [Prod.ext_iff] using heq
      simp
    · obtain ⟨hle, hget⟩ := mem_enumFromOne (n + 1) ls ln raw h'
      refine ⟨by omega, ?_⟩
      have hs : ln - n = (ln - (n + 1)) + 1 := by omega
      rw [hs, List.get?_cons_succ]
      exact hget

/-- C2 counterexample: with the manifest present, a line of exactly 3
tokens and an integer unit token — none of the claim's three structural
cases — the parse still raises: the unguarded `os.listdir` of the
fallback fails and its error propagates. -/
theorem c2_counterexample :
    fsNoList.isfile "m.nam" = true ∧
    (lineItems "WEL 11 wel.dat").length = 3 ∧
    pyInt (lineKeytok "WEL 11 wel.dat") = some 11 ∧
    (parsenamefile fsNoList [] none (fun _ f => f) "." false "m.nam"
      ["WEL 11 wel.dat"]).2 = .error (.listdirFailed ".") :=
  ⟨by decide, by decide, by rfl, by rfl⟩

/-- C2 (amended): whenever `parsenamefile` raises, the error is one of
exactly four cases — the manifest does not exist (an I/O error naming
the missing path and its directory); a data line with fewer than 3
tokens, or a unit token that is not a valid integer (value errors
carrying the 1-based line number and the stripped line text); or a
resolved path that is not an existing regular file whose parent
directory cannot be listed (the unguarded `os.listdir` error).  In each
case the `Except` result carries no registry. -/
theorem c2_error_cases (fs : FS) (packages : Packages)
    (cf : Option String) (gfa : String → String → String) (ws : String)
    (v : Bool) (nam : String) (lines : List String)
    (msgs : List String) (e : ParseError)
    (h : parsenamefile fs packages cf gfa ws v nam lines = (msgs, .error e)) :
    (e = .namNotFound nam (dirname nam) ∧ fs.isfile nam = false) ∨
    (fs.isfile nam = true ∧ ∃ ln raw, 1 ≤ ln ∧
      lines.get? (ln - 1) = some raw ∧ isDataLine raw = true ∧
      ((e = .tooFewItems ln (pyStrip raw) ∧ (lineItems raw).length < 3) ∨
       (¬ (lineItems raw).length < 3 ∧
        (fs.isfile (resolveFname cf gfa ws (linePath raw)) = false ∨
         fs.pathExists (resolveFname cf gfa ws (linePath raw)) = false) ∧
        fs.listdir (dirname (resolveFname cf gfa ws (linePath raw)))
          = none ∧
        e = .listdirFailed
          (dirname (resolveFname cf gfa ws (linePath raw)))) ∨
       (¬ (lineItems raw).length < 3 ∧ e = .badUnit ln (pyStrip raw) ∧
        pyInt (lineKeytok raw) = none))) := by
  simp only [parsenamefile] at h
  split at h
  · rename_i hnf
    left
    simp only [Prod.mk.injEq, Except.error.injEq] at h
    obtain ⟨-, rfl⟩ := h
    exact ⟨rfl, by simpa using hnf⟩
  · rename_i hnf
    right
    refine ⟨by simpa using hnf, ?_⟩
    simp only [Prod.mk.injEq] at h
    obtain ⟨-, hsnd⟩ := h
    have hpl : parseLines fs packages cf gfa ws v (enumFromOne 1 lines) [] =
        ((parseLines fs packages cf gfa ws v (enumFromOne 1 lines) []).1,
          Except.error e) := by
      rw [← hsnd]
    obtain ⟨ln, raw, hmem, hdata, hcases⟩ := parseLines_error_cases fs
      packages cf gfa ws v (enumFromOne 1 lines) []
      (parseLines fs packages cf gfa ws v (enumFromOne 1 lines) []).1 e hpl
    obtain ⟨hle, hget⟩ := mem_enumFromOne 1 lines ln raw hmem
    exact ⟨ln, raw, hle, hget, hdata, hcases⟩

theorem c2_error_cases_witness :
    ((ParseError.namNotFound "x.nam" "" :  ParseError) =
        .namNotFound "x.nam" (dirname "x.nam") ∧
      fsNone.isfile "x.nam" = false) ∨
    (fsNone.isfile "x.nam" = true ∧ ∃ ln raw, 1 ≤ ln ∧
      ([] : List String).get? (ln - 1) = some raw ∧ isDataLine raw = true ∧
      (((ParseError.namNotFound "x.nam" "" : ParseError) =
          .tooFewItems ln (pyStrip raw) ∧ (lineItems raw).length < 3) ∨
       (¬ (lineItems raw).length < 3 ∧
        (fsNone.isfile (resolveFname none (fun _ f => f) "." (linePath raw))
          = false ∨
         fsNone.pathExists
          (resolveFname none (fun _ f => f) "." (linePath raw)) = false) ∧
        fsNone.listdir (dirname
          (resolveFname none (fun _ f => f) "." (linePath raw))) = none ∧
        (ParseError.namNotFound "x.nam" "" : ParseError) = .listdirFailed
          (dirname (resolveFname none (fun _ f => f) "." (linePath raw)))) ∨
       (¬ (lineItems raw).length < 3 ∧
        (ParseError.namNotFound "x.nam" "" : ParseError) =
          .badUnit ln (pyStrip raw) ∧
        pyInt (lineKeytok raw) = none))) :=
  c2_error_cases fsNone [] none (fun _ f => f) "." false "x.nam" [] []
    (ParseError.namNotFound "x.nam" "") (by rfl)

